import Mathlib

/-!
Verification of the shrina-proxy streaming reverse proxy.

This file gives a shallow embedding, in Lean 4, of the request-handling
pipeline of the proxy: the transport-stream sniffer, the content-type
arbiter, the decompression engine with its cross-codec fallback, URL
admission, the WebVTT rewriter, the cached-response range slicing, the
buffered proxy pipeline, and the per-hostname header synthesis.  JS strings
are modelled as lists of characters, byte buffers as lists of naturals,
fallible platform codecs as functions into `Option`, and the mutable
header-map cache as explicit state passing.  Theorems at the end of the
file settle the specification claims against these definitions.
-/

/-- JS strings are modelled as lists of characters (one element per UTF-16
code unit; every string manipulated by the proxy is ASCII-safe). -/
abbrev Str := List Char

/-- JS `String.prototype.toLowerCase`, restricted to the ASCII range, which
is all the proxy relies on (`Char.toLower` lowers exactly A-Z). -/
def jsToLower (s : Str) : Str := s.map Char.toLower

/-- JS `String.prototype.endsWith`. -/
def jsEndsWith (s suf : Str) : Bool := List.isSuffixOf suf s

/-- JS `String.prototype.startsWith`. -/
def jsStartsWith (s pre : Str) : Bool := List.isPrefixOf pre s

/-- JS `String.prototype.includes` (substring containment). -/
def jsIncludes (s sub : Str) : Bool :=
  match s with
  | [] => sub.isEmpty
  | _ :: rest => List.isPrefixOf sub s || jsIncludes rest sub

/-- Whitespace recognised by JS `String.prototype.trim` (the ASCII cases). -/
def jsIsSpace (c : Char) : Bool :=
  (c == ' ') || (c == '\t') || (c == '\n') || (c == '\r') ||
  (c.toNat == 11) || (c.toNat == 12)

/-- JS `String.prototype.trim`. -/
def jsTrim (s : Str) : Str :=
  ((s.dropWhile jsIsSpace).reverse.dropWhile jsIsSpace).reverse

/-- Decimal rendering of a natural, as used by JS template literals. -/
def natToChars (n : Nat) : Str := (Nat.repr n).toList

/-- Value of a digit string, as computed by JS `parseInt(s, 10)` on an
all-digit string. -/
def digitsToNat (ds : Str) : Nat :=
  ds.foldl (fun a c => a * 10 + (c.toNat - 48)) 0

/-- JS truthiness of an optional string: `null`, `undefined` and the empty
string are falsy. -/
def strTruthy : Option Str → Bool
  | none => false
  | some s => decide (s ≠ [])

/-! ## Transport-Stream Sniffer (src/unnamed/part_000, `detectTransportStream`) -/

/-- Embedding of `detectTransportStream` (src/unnamed/part_000 lines
293-343).  Buffers shorter than 188 bytes, or buffers whose first byte is
not the sync byte 0x47, are negative; otherwise the loop counts sync bytes
at offsets i*188 for i = 1..5 that fall inside the buffer, and the result
is positive iff at least two sync bytes (the initial one included) are
found. -/
def detectTransportStream (data : List Nat) : Bool :=
  if data.length < 188 then false
  else if data.getD 0 0 ≠ 0x47 then false
  else
    let syncByteCount :=
      1 + List.countP
            (fun i => (decide (i * 188 < data.length)) && (data.getD (i * 188) 0 == 0x47))
            [1, 2, 3, 4, 5]
    decide (2 ≤ syncByteCount)

/-! ## MIME and Segment Classifier (src/unnamed/part_001) -/

/-- Scan for an occurrence of the literal `lit` immediately followed by a
decimal digit; this decides the regexes of the form `/lit-\d+/i` in
`SEGMENT_PATTERNS` when applied to the lowercased path with a lowercase
literal (the `i` flag commutes with lowercasing for these ASCII patterns). -/
def litThenDigit (lit : Str) : Str → Bool
  | [] => false
  | c :: rest =>
    (List.isPrefixOf lit (c :: rest) && (((c :: rest).drop lit.length).headD ' ').isDigit)
    || litThenDigit lit rest

/-- Matcher for the tail dash-v-digits-dash-a-digits anchored at the head
of the string: a literal `-v`, at least one digit, then `-a` and at least
one digit.  The digit run is forced (digits and the dash are disjoint), so
the backtracking regex is equivalent to this deterministic scan. -/
def checkVA (s : Str) : Bool :=
  match s with
  | '-' :: 'v' :: t =>
    let ds := t.takeWhile Char.isDigit
    let t2 := t.dropWhile Char.isDigit
    (decide (ds ≠ [])) &&
      (match t2 with
       | '-' :: 'a' :: d :: _ => d.isDigit
       | _ => false)
  | _ => false

/-- Decides the case-insensitive regex `-v\d+-a\d+` on the lowercased
path. -/
def dashVdashA : Str → Bool
  | [] => false
  | c :: rest => checkVA (c :: rest) || dashVdashA rest

/-- Matcher for `-f\d+-v\d+-a\d+` anchored at the head of the string. -/
def checkFVA (s : Str) : Bool :=
  match s with
  | '-' :: 'f' :: t =>
    let ds := t.takeWhile Char.isDigit
    let t2 := t.dropWhile Char.isDigit
    (decide (ds ≠ [])) && checkVA t2
  | _ => false

/-- Decides the case-insensitive regex `-f\d+-v\d+-a\d+` on the lowercased
path. -/
def dashFdashVdashA : Str → Bool
  | [] => false
  | c :: rest => checkFVA (c :: rest) || dashFdashVdashA rest

/-- Decides the end-anchored regexes `_\d+\.ts$` and `_\d+\.m4s$` (both
case-insensitive):
`extRev` is the reversed extension (for example `".ts"` reversed); the
string matches iff it ends with the extension preceded by at least one
digit preceded by an underscore. -/
def underscoreDigitsSuffix (extRev : Str) (low : Str) : Bool :=
  let r := low.reverse
  if List.isPrefixOf extRev r then
    let t := r.drop extRev.length
    let ds := t.takeWhile Char.isDigit
    (decide (ds ≠ [])) && ((t.dropWhile Char.isDigit).headD ' ' == '_')
  else false

/-- Embedding of the `SEGMENT_PATTERNS.some(p => p.test(path))` check of
src/unnamed/part_001 (lines 1532-1549 and 1589): the eleven
case-insensitive regexes are decided on the lowercased path. -/
def hasSegmentPattern (path : Str) : Bool :=
  let low := jsToLower path
  litThenDigit (("seg-").toList) low ||
  litThenDigit (("segment-").toList) low ||
  litThenDigit (("chunk-").toList) low ||
  litThenDigit (("frag-").toList) low ||
  litThenDigit (("part-").toList) low ||
  dashVdashA low ||
  dashFdashVdashA low ||
  litThenDigit (("media-").toList) low ||
  litThenDigit (("stream_").toList) low ||
  underscoreDigitsSuffix (("st.").toList) low ||
  underscoreDigitsSuffix (("s4m.").toList) low

/-- The six suspicious extensions of `isDisguisedSegment`
(src/unnamed/part_001 line 1590). -/
def suspiciousExtensions : List Str :=
  [(".js").toList, (".jpg").toList, (".png").toList,
   (".gif").toList, (".css").toList, (".html").toList]

/-- Embedding of `isDisguisedSegment` (src/unnamed/part_001 lines
1583-1595): a non-empty path that matches one of the segment naming
patterns and whose lowercase form ends in one of the suspicious
non-media extensions. -/
def isDisguisedSegment (path : Str) : Bool :=
  if path = [] then false
  else
    let pathLower := jsToLower path
    hasSegmentPattern path &&
      suspiciousExtensions.any (fun ext => jsEndsWith pathLower ext)

/-- Embedding of `isM3u8Playlist` (src/unnamed/part_001 lines 1626-1629). -/
def isM3u8Playlist (path : Str) : Bool :=
  if path = [] then false
  else
    jsEndsWith (jsToLower path) ((".m3u8").toList) ||
    jsEndsWith (jsToLower path) ((".m3u").toList)

/-! ## Content-Type Arbiter (src/unnamed/part_000, `determineContentType`,
combined with the disguised-segment pre-check of src/src/proxy-routes.ts
lines 1133-1145) -/

/-- The JS condition `!originalContentType ||
!originalContentType.includes('application/vnd.apple.mpegurl')` of
`determineContentType`: true when the upstream content type is absent,
empty, or does not mention the HLS playlist type. -/
def notSayMpegurl (oct : Option Str) : Bool :=
  match oct with
  | none => true
  | some ct =>
    (decide (ct = [])) || !(jsIncludes ct (("application/vnd.apple.mpegurl").toList))

/-- The JS fallback `originalContentType || 'application/octet-stream'`:
the upstream content type when truthy (present and non-empty), otherwise
the octet-stream default. -/
def jsOrOctet (oct : Option Str) : Str :=
  match oct with
  | some ct => if ct = [] then ("application/octet-stream").toList else ct
  | none => ("application/octet-stream").toList

/-- Embedding of `determineContentType` (src/unnamed/part_000 lines
353-409).  The disguised-segment analysis inside this function only logs
and does not change the result, so it is not modelled. -/
def determineContentType (buffer : List Nat) (originalContentType : Option Str)
    (url : Str) : Str :=
  if detectTransportStream buffer then ("video/mp2t").toList
  else if jsEndsWith (jsToLower url) ((".m3u8").toList) && notSayMpegurl originalContentType
  then ("application/vnd.apple.mpegurl").toList
  else jsOrOctet originalContentType

/-- The content-type arbitration performed by the buffered proxy pipeline
(src/src/proxy-routes.ts lines 1133-1145): a URL that is a disguised
segment classifies as `video/mp2t` outright, and every other response goes
through `determineContentType`. -/
def arbitrateContentType (buffer : List Nat) (originalContentType : Option Str)
    (url : Str) : Str :=
  if isDisguisedSegment url then ("video/mp2t").toList
  else determineContentType buffer originalContentType url

/-- The decision order of spec section 4.10, written from the spec's words:
first the sniffer, then the `.m3u8` extension against an upstream type
that does not already say `application/vnd.apple.mpegurl` (absent and
empty types count as not saying it), then the disguised-segment rule, then
the upstream type when present and non-empty, else
`application/octet-stream`. -/
def specContentTypeArbiter (buffer : List Nat) (originalContentType : Option Str)
    (url : Str) : Str :=
  if detectTransportStream buffer then ("video/mp2t").toList
  else if jsEndsWith (jsToLower url) ((".m3u8").toList) && notSayMpegurl originalContentType
  then ("application/vnd.apple.mpegurl").toList
  else if isDisguisedSegment url then ("video/mp2t").toList
  else jsOrOctet originalContentType

/-! ## Decompression Engine (src/unnamed/part_000, `decompressContent`) -/

/-- The four platform codecs used by the decompression engine
(`gunzipAsync`, `brotliDecompressAsync`, `fzstdDecompress`, `inflateAsync`
from zlib and fzstd).  Each is an external possibly-failing byte
transformer; a `none` result models the promise rejecting. -/
structure Codecs where
  gzip : List Nat → Option (List Nat)
  brotli : List Nat → Option (List Nat)
  zstd : List Nat → Option (List Nat)
  inflate : List Nat → Option (List Nat)

/-- Embedding of `autoDetectAndDecompress` (src/unnamed/part_000 lines
89-138): gzip on the 1F 8B magic, zstd on the 28 B5 2F FD magic, then a
blind brotli and deflate attempt, and the original buffer when everything
fails.  Every internal failure is caught, so the function itself never
fails. -/
def autoDetectAndDecompress (c : Codecs) (b : List Nat) : List Nat :=
  let tryGzip : Option (List Nat) :=
    if (decide (2 < b.length)) && (b.getD 0 0 == 0x1F) && (b.getD 1 0 == 0x8B)
    then c.gzip b else none
  match tryGzip with
  | some r => r
  | none =>
    let tryZstd : Option (List Nat) :=
      if (decide (4 < b.length)) && (b.getD 0 0 == 0x28) && (b.getD 1 0 == 0xB5) &&
         (b.getD 2 0 == 0x2F) && (b.getD 3 0 == 0xFD)
      then c.zstd b else none
    match tryZstd with
    | some r => r
    | none =>
      match c.brotli b with
      | some r => r
      | none =>
        match c.inflate b with
        | some r => r
        | none => b

/-- JS `String.prototype.replace` with a non-empty literal string pattern:
replaces the first occurrence only. -/
def jsReplaceFirst (pat rep : Str) : Str → Str
  | [] => []
  | c :: rest =>
    if List.isPrefixOf pat (c :: rest)
    then rep ++ (c :: rest).drop pat.length
    else c :: jsReplaceFirst pat rep rest

/-- Embedding of `fallbackDecompression` (src/unnamed/part_000 lines
143-184): zstd is tried first unless it is the codec that just failed;
then gzip, brotli and deflate are tried in that order, skipping the method
whose name equals `failedEncoding.replace('br', 'brotli')`; the original
buffer is returned when every attempt fails. -/
def fallbackDecompression (c : Codecs) (inputBuffer : List Nat)
    (failedEncoding : Str) : List Nat :=
  let afterZstd : Option (List Nat) :=
    if failedEncoding ≠ ("zstd").toList then c.zstd inputBuffer else none
  match afterZstd with
  | some r => r
  | none =>
    let skip := jsReplaceFirst (("br").toList) (("brotli").toList) failedEncoding
    match (if ("gzip").toList ≠ skip then c.gzip inputBuffer else none) with
    | some r => r
    | none =>
      match (if ("brotli").toList ≠ skip then c.brotli inputBuffer else none) with
      | some r => r
      | none =>
        match (if ("deflate").toList ≠ skip then c.inflate inputBuffer else none) with
        | some r => r
        | none => inputBuffer

/-- Embedding of `decompressContent` (src/unnamed/part_000 lines 17-84).
A missing or empty content-encoding goes to auto-detection; a recognised
encoding (after lowercasing and trimming) tries its codec and falls back
to `fallbackDecompression` when the codec fails; an unrecognised encoding
goes to auto-detection.  The function never fails: every failure path ends
in the fallback chain or in auto-detection, both of which return the
original bytes at worst. -/
def decompressContent (c : Codecs) (buffer : List Nat)
    (contentEncoding : Option Str) : List Nat :=
  match contentEncoding with
  | none => autoDetectAndDecompress c buffer
  | some ce =>
    if ce = [] then autoDetectAndDecompress c buffer
    else
      let encoding := jsTrim (jsToLower ce)
      if encoding = ("gzip").toList then
        match c.gzip buffer with
        | some r => r
        | none => fallbackDecompression c buffer encoding
      else if encoding = ("br").toList then
        match c.brotli buffer with
        | some r => r
        | none => fallbackDecompression c buffer encoding
      else if encoding = ("zstd").toList then
        match c.zstd buffer with
        | some r => r
        | none => fallbackDecompression c buffer encoding
      else if encoding = ("deflate").toList then
        match c.inflate buffer with
        | some r => r
        | none => fallbackDecompression c buffer encoding
      else autoDetectAndDecompress c buffer

/-- Modelled from the spec: `decompressWithWorker`
(src/utils/worker-pool.ts, whose source is not under src/) offloads large
buffers to the worker pool but is contractually identical to the inline
decompression engine — spec sections 4.4, 4.5 and 9 state that the pool is
an optimization, not a correctness boundary, and that every call site must
tolerate synchronous decode as a fallback. -/
def decompressWithWorker (c : Codecs) (buffer : List Nat)
    (contentEncoding : Option Str) : List Nat :=
  decompressContent c buffer contentEncoding

/-- The codec that a declared content-encoding selects in the switch of
`decompressContent`. -/
def codecFor (c : Codecs) (declared : Str) : List Nat → Option (List Nat) :=
  if declared = ("gzip").toList then c.gzip
  else if declared = ("br").toList then c.brotli
  else if declared = ("zstd").toList then c.zstd
  else if declared = ("deflate").toList then c.inflate
  else fun _ => none

/-- The codec that a fallback method name (`zstd`, `gzip`, `brotli`,
`deflate`) selects. -/
def codecByName (c : Codecs) (nm : Str) : List Nat → Option (List Nat) :=
  if nm = ("zstd").toList then c.zstd
  else if nm = ("gzip").toList then c.gzip
  else if nm = ("brotli").toList then c.brotli
  else if nm = ("deflate").toList then c.inflate
  else fun _ => none

/-- First successful decode over an ordered list of codec names, written
from the spec's words for section 4.4. -/
def tryCodecs (c : Codecs) : List Str → List Nat → Option (List Nat)
  | [], _ => none
  | nm :: rest, b =>
    match codecByName c nm b with
    | some r => some r
    | none => tryCodecs c rest b

/-- The canonical fallback name of a declared encoding (the header value
`br` names the brotli codec), written from the spec's words. -/
def canonicalCodecName (declared : Str) : Str :=
  if declared = ("br").toList then ("brotli").toList else declared

/-- The fallback order of spec section 4.4: each codec other than the one
that just failed, once, in the order zstd, gzip, brotli, deflate. -/
def specFallbackOrder (declared : Str) : List Str :=
  [("zstd").toList, ("gzip").toList, ("brotli").toList, ("deflate").toList].filter
    (fun nm => nm ≠ canonicalCodecName declared)

/-! ## URL parsing and URL Admission (src/unnamed/part_000, `validateUrl`) -/

/-- Parsed URL object, mirroring the fields of the WHATWG `URL` class that
the proxy reads. -/
structure UrlObj where
  protocol : Str
  hostname : Str
  host : Str
  pathname : Str
deriving DecidableEq, Repr

/-- Characters allowed in a URL scheme after the first letter. -/
def schemeChar (c : Char) : Bool :=
  c.isAlphanum || (c == '+') || (c == '-') || (c == '.')

/-- The WHATWG special schemes, whose URLs must carry a non-empty host. -/
def specialSchemes : List Str :=
  [("http").toList, ("https").toList, ("ws").toList,
   ("wss").toList, ("ftp").toList, ("file").toList]

/-- Modelled platform primitive: the Node `URL` constructor
(WHATWG URL parsing), which is not repository code.  The model covers the
hierarchical shapes the proxy exercises: a well-formed scheme followed by
a colon, then either `//` with an authority (user-info stripped at the
last `@`, port stripped at the first `:`, hostname lowercased, empty or
space-containing hosts of special schemes rejected) or an opaque path.  A
`none` result models the constructor throwing. -/
def jsNewUrl (s : Str) : Option UrlObj :=
  let sch := s.takeWhile (fun c => !(c == ':'))
  match s.dropWhile (fun c => !(c == ':')) with
  | ':' :: rest =>
    if sch = [] then none
    else if !(sch.headD ' ').isAlpha then none
    else if !sch.all schemeChar then none
    else
      let scheme := jsToLower sch
      let special := decide (scheme ∈ specialSchemes)
      if jsStartsWith rest (("//").toList) then
        let afterSlashes := rest.drop 2
        let stop := fun (c : Char) => (c == '/') || (c == '?') || (c == '#')
        let authority := afterSlashes.takeWhile (fun c => !(stop c))
        let afterAuth := afterSlashes.dropWhile (fun c => !(stop c))
        let hostPort :=
          if authority.any (fun c => c == '@')
          then ((authority.reverse.takeWhile (fun c => !(c == '@'))).reverse)
          else authority
        let hostname := jsToLower (hostPort.takeWhile (fun c => !(c == ':')))
        if special && decide (hostname = []) then none
        else if hostname.any (fun c => c == ' ') then none
        else
          let p := afterAuth.takeWhile (fun c => !((c == '?') || (c == '#')))
          some { protocol := scheme ++ [':'],
                 hostname := hostname,
                 host := jsToLower hostPort,
                 pathname := if p = [] && special then [('/')] else p }
      else
        some { protocol := scheme ++ [':'],
               hostname := [],
               host := [],
               pathname := rest.takeWhile (fun c => !((c == '?') || (c == '#'))) }
  | _ => none

/-- Options of `validateUrl` (src/unnamed/part_000 lines 200-204), with
the default values taken in its destructuring (line 216-220). -/
structure UrlValidatorOptions where
  allowedDomains : List Str := []
  maxUrlLength : Nat := 2048
  requireProtocol : Bool := false
deriving Repr

/-- Result of `validateUrl` (src/unnamed/part_000 lines 191-195). -/
structure UrlValidationResult where
  valid : Bool
  reason : Option Str := none
  hostname : Option Str := none
deriving DecidableEq, Repr

/-- Embedding of `validateUrl` (src/unnamed/part_000 lines 212-282): the
empty URL and over-long URLs are rejected; a URL starting with `/` is
accepted outright; a URL containing `://` is parsed, checked against the
domain allow-list when that list is non-empty, and accepted with its
hostname; a parse failure is rejected as an invalid format; a URL without
`://` is rejected when a protocol is required and accepted otherwise. -/
def validateUrl (url : Str) (options : UrlValidatorOptions) : UrlValidationResult :=
  if url = [] then
    { valid := false, reason := some (("URL cannot be empty").toList) }
  else if options.maxUrlLength < url.length then
    { valid := false,
      reason := some ((("URL exceeds maximum length of ").toList ++
        natToChars options.maxUrlLength ++ (" characters").toList)) }
  else if jsStartsWith url (("/").toList) then
    { valid := true }
  else if jsIncludes url (("://").toList) then
    match jsNewUrl url with
    | some u =>
      if options.allowedDomains ≠ [] ∧ u.hostname ∉ options.allowedDomains then
        { valid := false,
          reason := some (("Domain not in allowed domains list").toList),
          hostname := some u.hostname }
      else
        { valid := true, hostname := some u.hostname }
    | none =>
      { valid := false, reason := some (("Invalid URL format").toList) }
  else if options.requireProtocol then
    { valid := false,
      reason := some (("URL must include protocol (http:// or https://)").toList) }
  else
    { valid := true }

/-! ## URL parameter middleware (src/src/proxy-routes.ts, `validateUrlParam`) -/

/-- Base64 value of one character under Node's lenient decoder, which also
accepts the URL-safe alphabet. -/
def base64Val (c : Char) : Option Nat :=
  if c.isUpper then some (c.toNat - 65)
  else if c.isLower then some (c.toNat - 97 + 26)
  else if c.isDigit then some (c.toNat - 48 + 52)
  else if (c == '+') || (c == '-') then some 62
  else if (c == '/') || (c == '_') then some 63
  else none

/-- Reassembles decoded 6-bit groups into bytes (4 groups to 3 bytes, with
the usual truncation for trailing groups). -/
def b64Bytes : List Nat → List Nat
  | a :: b :: c :: d :: rest =>
    (a * 4 + b / 16) :: ((b % 16) * 16 + c / 4) :: ((c % 4) * 64 + d) :: b64Bytes rest
  | [a, b, c] => [a * 4 + b / 16, (b % 16) * 16 + c / 4]
  | [a, b] => [a * 4 + b / 16]
  | _ => []

/-- Modelled platform primitive: `Buffer.from(s, 'base64')`.  Node's
decoder is total: characters outside the base64 alphabet are skipped, a
padding character ends the data, and trailing partial groups are
truncated.  No input makes it throw. -/
def jsBase64Decode (s : Str) : List Nat :=
  b64Bytes ((s.takeWhile (fun c => !(c == '='))).filterMap base64Val)

/-- Modelled platform primitive: `Buffer.prototype.toString('utf-8')`,
approximated byte-by-byte (exact for the ASCII range; the admission
theorems do not depend on the multi-byte cases). -/
def bytesToChars (bs : List Nat) : Str := bs.map (fun b => Char.ofNat b)

/-- Test of the regex `^https?:\/\/` with the `i` flag, used by the
middleware on the inline path parameter. -/
def startsWithHttpProto (p : Str) : Bool :=
  jsStartsWith (jsToLower p) (("http://").toList) ||
  jsStartsWith (jsToLower p) (("https://").toList)

/-- Observable outcome of the `validateUrlParam` middleware
(src/src/proxy-routes.ts lines 47-112): the 400 response of the
base64-decoding catch block, the 400 for a missing URL, the 400 for a URL
that fails admission, or acceptance with the stored target URL. -/
inductive ParamOutcome where
  | invalidBase64
  | missingUrl
  | rejected (reason : Option Str) (url : Str)
  | accepted (url : Str)
deriving DecidableEq, Repr

/-- Embedding of the `validateUrlParam` middleware (src/src/proxy-routes.ts
lines 47-112): the URL is taken from the query parameter, else from the
inline path parameter (prefixed with `https://` when no scheme regex
matches), else base64-decoded from the encoded path parameter; a missing
or empty URL yields the missing-URL 400; otherwise the URL goes through
`validateUrl`.  The decode step is the total Node decoder, so the
`invalidBase64` outcome is produced by no path of the definition, exactly
as in the source, whose catch block guards an operation that cannot
throw. -/
def validateUrlParam (queryUrl paramUrl paramEncodedUrl : Option Str)
    (opts : UrlValidatorOptions) : ParamOutcome :=
  let url? : Option Str :=
    if strTruthy queryUrl then queryUrl
    else if strTruthy paramUrl then
      match paramUrl with
      | some p => some (if startsWithHttpProto p then p else ("https://").toList ++ p)
      | none => none
    else if strTruthy paramEncodedUrl then
      match paramEncodedUrl with
      | some e => some (bytesToChars (jsBase64Decode e))
      | none => none
    else none
  match url? with
  | none => ParamOutcome.missingUrl
  | some u =>
    if u = [] then ParamOutcome.missingUrl
    else
      let v := validateUrl u opts
      if v.valid then ParamOutcome.accepted u
      else ParamOutcome.rejected v.reason u

/-- Recognises the unreachable base64 failure outcome. -/
def isInvalidBase64 : ParamOutcome → Bool
  | ParamOutcome.invalidBase64 => true
  | _ => false

/-! ## Subtitle Rewriter (src/unnamed/part_000, `processVttContent`) -/

/-- JS regex word characters (the `\b` assertion classifies by these). -/
def jsWordChar (c : Char) : Bool := c.isAlphanum || (c == '_')

/-- The character class of the image regex of `processVttContent`:
anything but whitespace, a double quote or a single quote. -/
def vttClassOk (c : Char) : Bool :=
  !(jsIsSpace c) && !(c == '"') && !(c == '\'')

/-- The image extensions of the regex, in alternation order. -/
def vttExts : List Str :=
  [("jpg").toList, ("jpeg").toList, ("png").toList,
   ("gif").toList, ("webp").toList]

/-- Case-insensitive literal consumption: returns the consumed original
characters and the remainder when the head of `s` spells `lit` up to
case. -/
def icTakes (lit : Str) (s : Str) : Option (Str × Str) :=
  if (decide (lit.length ≤ s.length)) && (decide (jsToLower (s.take lit.length) = lit))
  then some (s.take lit.length, s.drop lit.length)
  else none

/-- Tries the extension alternatives in order at the current position; an
alternative succeeds when it matches case-insensitively and is followed by
a word boundary (a non-word character or the end of input), exactly as the
backtracking regex engine would. -/
def tryExtList : List Str → Str → Option (Str × Str)
  | [], _ => none
  | e :: es, s =>
    match icTakes e s with
    | some (orig, rest) =>
      if !(jsWordChar (rest.headD ' ')) then some (orig, rest)
      else tryExtList es s
    | none => tryExtList es s

/-- Lazy repetition of the character class followed by a literal dot and
an extension: `acc` holds the class characters consumed so far in reverse.
At each step the tail pattern is tried first (lazy `+?`), and the class is
extended by one character on failure, mirroring the regex engine on
`[^\s"']+?\.(jpg|jpeg|png|gif|webp)\b`. -/
def lazyScan (acc : Str) : Str → Option (Str × Str)
  | [] => none
  | c :: rest =>
    let tailTry : Option (Str × Str) :=
      if c = '.' then
        match tryExtList vttExts rest with
        | some (orig, r) => some (acc.reverse ++ '.' :: orig, r)
        | none => none
      else none
    match tailTry with
    | some r => some r
    | none => if vttClassOk c then lazyScan (c :: acc) rest else none

/-- Word-boundary test between the previous character (none at the start
of input) and the current one. -/
def boundaryB (prev : Option Char) (c : Char) : Bool :=
  (match prev with
   | none => false
   | some p => jsWordChar p) != jsWordChar c

/-- Global scan of the image regex: at each position with a word boundary
the lazy matcher is tried; on success the match is recorded and scanning
resumes after it, as JS `String.prototype.match` with the `g` flag does.
The fuel only bounds the recursion; one unit is consumed per character
position, so `length + 1` units never run out. -/
def scanVttFuel : Nat → Option Char → Str → List Str
  | 0, _, _ => []
  | _, _, [] => []
  | fuel + 1, prev, c :: rest =>
    if boundaryB prev c && vttClassOk c then
      match lazyScan [c] rest with
      | some (m, rest') => m :: scanVttFuel fuel (some (m.getLastD c)) rest'
      | none => scanVttFuel fuel (some c) rest
    else scanVttFuel fuel (some c) rest

/-- All matches of the image regex of `processVttContent` (line 444) over
the content, in order. -/
def vttImageMatches (content : Str) : List Str :=
  scanVttFuel (content.length + 1) none content

/-- Insertion-ordered deduplication, as `[...new Set(matches)]` computes. -/
def uniqueAux (seen : List Str) : List Str → List Str
  | [] => []
  | x :: rest =>
    if x ∈ seen then uniqueAux seen rest
    else x :: uniqueAux (x :: seen) rest

/-- Global literal replacement, as `String.prototype.replace(new
RegExp(escapeRegExp(pat), 'g'), rep)` computes for the escaped literal
pattern (dollar sequences in the replacement are not exercised by the
rewriter's inputs and are not modelled).  The fuel consumes one unit per
examined position and `length + 1` units never run out for the non-empty
patterns the rewriter produces. -/
def replaceAllFuel : Nat → Str → Str → Str → Str
  | 0, _, _, s => s
  | fuel + 1, pat, rep, s =>
    match s with
    | [] => []
    | c :: rest =>
      if (decide (pat ≠ [])) && List.isPrefixOf pat s
      then rep ++ replaceAllFuel fuel pat rep (s.drop pat.length)
      else c :: replaceAllFuel fuel pat rep rest

/-- Entry point of the global literal replacement. -/
def replaceAllSub (pat rep s : Str) : Str :=
  replaceAllFuel (s.length + 1) pat rep s

/-- Hexadecimal digit (uppercase, as `encodeURIComponent` emits). -/
def hexDigit (n : Nat) : Char :=
  if n < 10 then Char.ofNat (48 + n) else Char.ofNat (55 + n)

/-- UTF-8 byte sequence of a code point. -/
def utf8Bytes (n : Nat) : List Nat :=
  if n < 0x80 then [n]
  else if n < 0x800 then [0xC0 + n / 64, 0x80 + n % 64]
  else if n < 0x10000 then [0xE0 + n / 4096, 0x80 + n / 64 % 64, 0x80 + n % 64]
  else [0xF0 + n / 262144, 0x80 + n / 4096 % 64, 0x80 + n / 64 % 64, 0x80 + n % 64]

/-- Characters `encodeURIComponent` leaves unescaped. -/
def uriUnreserved (c : Char) : Bool :=
  c.isAlphanum || (c == '-') || (c == '_') || (c == '.') || (c == '!') ||
  (c == '~') || (c == '*') || (c == '\'') || (c == '(') || (c == ')')

/-- Modelled platform primitive: `encodeURIComponent`. -/
def encodeURIComponent (s : Str) : Str :=
  s.foldr
    (fun c acc =>
      (if uriUnreserved c then [c]
       else (utf8Bytes c.toNat).foldr
         (fun b acc2 => '%' :: hexDigit (b / 16 % 16) :: hexDigit (b % 16) :: acc2) []) ++ acc)
    []

/-- Modelled platform primitive: `new URL(rel, base).toString()` as the
rewriters use it.  An absolute `rel` ignores the base (its serialization
is approximated by the input string); otherwise the base must parse, and
the relative reference is appended to the base's directory (dot-segment
normalization is not modelled; the rewriter theorems do not depend on
it).  A `none` result models the constructor throwing on an unparsable
base. -/
def jsResolveUrl (rel base : Str) : Option Str :=
  match jsNewUrl rel with
  | some _ => some rel
  | none =>
    match jsNewUrl base with
    | none => none
    | some b =>
      if jsStartsWith rel (("//").toList) then some (b.protocol ++ rel)
      else if jsStartsWith rel (("/").toList) then
        some (b.protocol ++ ("//").toList ++ b.host ++ rel)
      else
        let dir := (b.pathname.reverse.dropWhile (fun c => !(c == '/'))).reverse
        some (b.protocol ++ ("//").toList ++ b.host ++
              (if dir = [] then [('/')] else dir) ++ rel)

/-- Options of `processVttContent` (src/unnamed/part_000 lines 416-420),
with the default parameter name. -/
structure VttHandlerOptions where
  proxyBaseUrl : Str
  targetUrl : Str
  urlParamName : Str := ("url").toList
deriving Repr

/-- JS `targetUrl.substring(0, targetUrl.lastIndexOf('/') + 1)`. -/
def basePathOf (s : Str) : Str :=
  (s.reverse.dropWhile (fun c => !(c == '/'))).reverse

/-- Resolution of one matched image reference against the target URL
(src/unnamed/part_000 lines 456-472): absolute URLs pass through,
protocol-relative and root-relative URLs are completed from the target
URL object, and path-relative URLs resolve against the base path; a
`none` models the `new URL` call throwing, which the enclosing catch
turns into returning the original content. -/
def vttResolveImage (targetUrlObj : UrlObj) (basePath : Str)
    (imageUrl : Str) : Option Str :=
  if jsStartsWith imageUrl (("http://").toList) ||
     jsStartsWith imageUrl (("https://").toList) then some imageUrl
  else if jsStartsWith imageUrl (("//").toList) then
    some (targetUrlObj.protocol ++ imageUrl)
  else if jsStartsWith imageUrl (("/").toList) then
    some (targetUrlObj.protocol ++ ("//").toList ++ targetUrlObj.host ++ imageUrl)
  else jsResolveUrl imageUrl basePath

/-- The rewrite loop of `processVttContent` (lines 456-482): each unique
image URL is resolved, turned into a proxied URL, and every textual
occurrence is replaced; a resolution failure aborts the loop (the thrown
error reaches the catch block). -/
def vttRewriteLoop (options : VttHandlerOptions) (targetUrlObj : UrlObj)
    (basePath : Str) : List Str → Str → Option Str
  | [], processed => some processed
  | imageUrl :: rest, processed =>
    match vttResolveImage targetUrlObj basePath imageUrl with
    | none => none
    | some absoluteUrl =>
      let proxyUrl := options.proxyBaseUrl ++ ('?' :: options.urlParamName) ++
        ('=' :: encodeURIComponent absoluteUrl)
      vttRewriteLoop options targetUrlObj basePath rest
        (replaceAllSub imageUrl proxyUrl processed)

/-- Embedding of `processVttContent` (src/unnamed/part_000 lines 428-491):
the target URL is parsed (a parse failure reaches the catch block, which
returns the content unchanged), the image references are collected, an
input without matches is returned unchanged, and otherwise each unique
reference is rewritten to a proxied URL, with any error again yielding the
original content. -/
def processVttContent (content : Str) (options : VttHandlerOptions) : Str :=
  match jsNewUrl options.targetUrl with
  | none => content
  | some targetUrlObj =>
    let basePath := basePathOf options.targetUrl
    let ms := vttImageMatches content
    if ms = [] then content
    else
      match vttRewriteLoop options targetUrlObj basePath (uniqueAux [] ms) content with
      | none => content
      | some processed => processed

/-! ## Cached-response range slicing (src/src/proxy-routes.ts lines 585-607) -/

/-- Search of the regex `bytes=(\d+)-(\d+)?` over the Range header: the
first position spelling `bytes=` followed by at least one digit, a dash,
and an optional second digit run.  The digit runs are maximal (a digit
cannot also match the following literal), so the backtracking engine and
this deterministic scan agree. -/
def parseRangeAt (s : Str) : Option (Nat × Option Nat) :=
  if jsStartsWith s (("bytes=").toList) then
    let t := s.drop 6
    let ds := t.takeWhile Char.isDigit
    if ds = [] then none
    else
      match t.dropWhile Char.isDigit with
      | '-' :: t2 =>
        let ds2 := t2.takeWhile Char.isDigit
        some (digitsToNat ds, if ds2 = [] then none else some (digitsToNat ds2))
      | _ => none
  else none

/-- The regex search over every start position. -/
def parseRangeHeader : Str → Option (Nat × Option Nat)
  | [] => none
  | c :: rest =>
    match parseRangeAt (c :: rest) with
    | some r => some r
    | none => parseRangeHeader rest

/-- Outcome of serving a cache hit: a 206 partial response with a body
slice and a synthetic Content-Range header, or the full cached body. -/
inductive RangeOutcome where
  | sliced206 (body : List Nat) (contentRange : Str)
  | full (body : List Nat)
deriving DecidableEq, Repr

/-- The Content-Range header value `bytes start-end/size` synthesized at
line 596. -/
def contentRangeStr (start stop size : Nat) : Str :=
  ("bytes ").toList ++ natToChars start ++ ('-' :: natToChars stop) ++
  ('/' :: natToChars size)

/-- Embedding of the cache-hit range handling (src/src/proxy-routes.ts
lines 585-607): when the client sent a Range header matching the regex,
the start is its first capture and the end its optional second capture
defaulting to the last byte index; a range passing the validation
`start >= 0 && end < length && start <= end` yields a 206 with the
inclusive slice `data.slice(start, end + 1)` and a synthetic
Content-Range; everything else yields the full cached body. -/
def cacheHitRange (data : List Nat) (rangeHeader : Option Str) : RangeOutcome :=
  match rangeHeader with
  | none => RangeOutcome.full data
  | some h =>
    match parseRangeHeader h with
    | none => RangeOutcome.full data
    | some (start, stopOpt) =>
      let stop := stopOpt.getD (data.length - 1)
      if 0 ≤ start ∧ stop < data.length ∧ start ≤ stop then
        RangeOutcome.sliced206 ((data.drop start).take (stop + 1 - start))
          (contentRangeStr start stop data.length)
      else RangeOutcome.full data

/-! ## MIME tables (src/unnamed/part_001, `getMimeType`) -/

/-- Association-list lookup by string key (first binding wins, as JS
property lookup over the insertion-ordered maps modelled here). -/
def alistGet {α : Type} : List (Str × α) → Str → Option α
  | [], _ => none
  | (k0, v0) :: rest, k => if k0 = k then some v0 else alistGet rest k

/-- The `STREAMING_FORMATS` table (src/unnamed/part_001 lines 1478-1503). -/
def streamingFormats : List (Str × Str) :=
  [(("m3u8").toList, ("application/vnd.apple.mpegurl").toList),
   (("m3u").toList, ("application/vnd.apple.mpegurl").toList),
   (("ts").toList, ("video/mp2t").toList),
   (("mts").toList, ("video/mp2t").toList),
   (("m2ts").toList, ("video/mp2t").toList),
   (("mpeg-ts").toList, ("video/mp2t").toList),
   (("mp2t").toList, ("video/mp2t").toList),
   (("mpd").toList, ("application/dash+xml").toList),
   (("mp4a").toList, ("audio/mp4").toList),
   (("mp4v").toList, ("video/mp4").toList),
   (("m4s").toList, ("video/iso.segment").toList),
   (("m4a").toList, ("audio/mp4").toList),
   (("m4v").toList, ("video/mp4").toList),
   (("vtt").toList, ("text/vtt").toList),
   (("srt").toList, ("application/x-subrip").toList),
   (("ttml").toList, ("application/ttml+xml").toList),
   (("jpg-ts").toList, ("video/mp2t").toList)]

/-- The `COMMON_MIME_TYPES` table (src/unnamed/part_001 lines 1436-1475). -/
def commonMimeTypes : List (Str × Str) :=
  [(("txt").toList, ("text/plain").toList),
   (("html").toList, ("text/html").toList),
   (("css").toList, ("text/css").toList),
   (("csv").toList, ("text/csv").toList),
   (("json").toList, ("application/json").toList),
   (("js").toList, ("application/javascript").toList),
   (("xml").toList, ("application/xml").toList),
   (("pdf").toList, ("application/pdf").toList),
   (("jpg").toList, ("image/jpeg").toList),
   (("jpeg").toList, ("image/jpeg").toList),
   (("png").toList, ("image/png").toList),
   (("gif").toList, ("image/gif").toList),
   (("webp").toList, ("image/webp").toList),
   (("svg").toList, ("image/svg+xml").toList),
   (("mp3").toList, ("audio/mpeg").toList),
   (("wav").toList, ("audio/wav").toList),
   (("ogg").toList, ("audio/ogg").toList),
   (("mp4").toList, ("video/mp4").toList),
   (("webm").toList, ("video/webm").toList),
   (("avi").toList, ("video/x-msvideo").toList),
   (("mpeg").toList, ("video/mpeg").toList),
   (("mov").toList, ("video/quicktime").toList),
   (("m3u8").toList, ("application/vnd.apple.mpegurl").toList),
   (("ts").toList, ("video/mp2t").toList),
   (("mpd").toList, ("application/dash+xml").toList),
   (("vtt").toList, ("text/vtt").toList),
   (("srt").toList, ("application/x-subrip").toList)]

/-- JS `path.split('.').pop().toLowerCase()`: the component after the last
dot, or the whole path when there is no dot, lowercased. -/
def extOf (path : Str) : Str :=
  jsToLower ((path.reverse.takeWhile (fun c => !(c == '.'))).reverse)

/-- Embedding of `getMimeType` (src/unnamed/part_001 lines 1556-1576):
empty paths and empty extensions yield nothing; disguised segments and the
legacy jpg-segment rule yield `video/mp2t`; otherwise the streaming table
is consulted before the common table. -/
def getMimeType (path : Str) : Option Str :=
  if path = [] then none
  else
    let extension := extOf path
    if extension = [] then none
    else if isDisguisedSegment path then some (("video/mp2t").toList)
    else if extension = ("jpg").toList && jsIncludes path (("segment-").toList) &&
            jsIncludes path (("-v1-a1").toList) then some (("video/mp2t").toList)
    else
      match alistGet streamingFormats extension with
      | some m => some m
      | none => alistGet commonMimeTypes extension

/-! ## Buffered proxy pipeline (src/src/proxy-routes.ts, `proxyRequest`,
lines 694-1247, after the upstream fetch has returned) -/

/-- JS `String.prototype.toUpperCase`, ASCII range. -/
def jsToUpper (s : Str) : Str := s.map Char.toUpper

/-- Bytes of a string, modelling `Buffer.from`/`res.send` on the ASCII
range the theorems exercise. -/
def charsToBytes (s : Str) : List Nat := s.map Char.toNat

/-- The `contentType?.includes(sub)` check with optional chaining. -/
def octIncludes (oct : Option Str) (sub : Str) : Bool :=
  match oct with
  | some ct => jsIncludes ct sub
  | none => false

/-- Embedding of the audio-segment classification (src/src/proxy-routes.ts
lines 709-712): upstream content type mentioning `audio/mp4` or
`audio/aac`, or URL containing `.aac` (case-sensitive, as in the source)
or `mp4a.40` (on the lowercased URL). -/
def isAudioSegment (contentType : Option Str) (url : Str) : Bool :=
  octIncludes contentType (("audio/mp4").toList) ||
  octIncludes contentType (("audio/aac").toList) ||
  jsIncludes url ((".aac").toList) ||
  jsIncludes (jsToLower url) (("mp4a.40").toList)

/-- Embedding of the M3U8-content detection (lines 738-741). -/
def isM3u8ContentFlag (contentType : Option Str) (url : Str) : Bool :=
  isM3u8Playlist url ||
  octIncludes contentType (("application/vnd.apple.mpegurl").toList) ||
  octIncludes contentType (("application/x-mpegurl").toList) ||
  jsEndsWith (jsToLower url) ((".m3u8").toList)

/-- Snapshot of the upstream response as the buffered pipeline reads it
(status, headers, byte body, and whether `response.body` is present). -/
structure UpstreamResponse where
  status : Nat
  contentType : Option Str
  contentEncoding : Option Str
  contentLength : Option Nat
  hasBodyStream : Bool
  body : List Nat
deriving Repr

/-- Observable result of one buffered exchange: the HTTP status, the bytes
sent, the final Content-Type and Content-Encoding headers, and the body
written into the response cache, if any. -/
structure SentResponse where
  status : Nat
  body : List Nat
  contentType : Option Str
  contentEncoding : Option Str
  cacheWrite : Option (List Nat)
deriving DecidableEq, Repr

/-- A buffered exchange either re-routes to the streaming handler (large
Content-Length) or sends a response. -/
inductive PipelineOutcome where
  | streamed
  | sent (r : SentResponse)
deriving DecidableEq, Repr

/-- The large-response streaming re-check of lines 700-706. -/
def largeFileReroute (enableStreaming : Bool) (streamThreshold : Nat)
    (method : Str) (resp : UpstreamResponse) : Bool :=
  enableStreaming &&
  (match resp.contentLength with
   | some l => decide (streamThreshold < l)
   | none => false) &&
  (decide (method = ("GET").toList))

/-- Embedding of the buffered path of `proxyRequest`
(src/src/proxy-routes.ts lines 694-1247), from the point where the
upstream fetch has resolved.  `m3u8Rewrite` stands for
`processM3u8Content` (src/utils/m3u8-handler.ts, not under src/),
modelled from the spec as an opaque text transformer, and `proxyBase` for
the `ROUTES.PROXY_BASE` configuration constant.  The header-forwarding
loop of lines 744-752 keeps the upstream Content-Encoding only for audio
segments; error statuses and 206 responses forward the body unchanged;
audio segments at 200 are sent byte-for-byte; M3U8 content is
decompressed and rewritten; VTT content is rewritten; all other bodies
are decompressed when encoded, classified (disguised segments first, then
`determineContentType`), and cached when the request was a GET, the
status 200, no Range header was sent, and the body is at most 10 MiB. -/
def bufferedPipeline (c : Codecs) (m3u8Rewrite : Str → Str) (proxyBase : Str)
    (method : Str) (hasRange : Bool) (enableStreaming : Bool)
    (streamThreshold : Nat) (url : Str) (resp : UpstreamResponse) :
    PipelineOutcome :=
  if largeFileReroute enableStreaming streamThreshold method resp then
    PipelineOutcome.streamed
  else
    let contentType := resp.contentType
    let contentEncoding := resp.contentEncoding
    let isAudio := isAudioSegment contentType url
    let isM3u8 := isM3u8ContentFlag contentType url
    let ce0 : Option Str := if isAudio then contentEncoding else none
    let ct0 : Option Str := contentType
    if 400 ≤ resp.status then
      PipelineOutcome.sent
        { status := resp.status, body := resp.body, contentType := ct0,
          contentEncoding := ce0, cacheWrite := none }
    else if resp.status = 206 then
      PipelineOutcome.sent
        { status := 206, body := resp.body, contentType := ct0,
          contentEncoding := ce0, cacheWrite := none }
    else if isAudio && decide (resp.status = 200) then
      PipelineOutcome.sent
        { status := 200, body := resp.body, contentType := ct0,
          contentEncoding := ce0, cacheWrite := none }
    else if isM3u8 && decide (resp.status = 200) then
      let decompressed := decompressWithWorker c resp.body
        (if strTruthy contentEncoding then contentEncoding else none)
      let text := bytesToChars decompressed
      if !(jsIncludes (jsToUpper text) (("#EXTM3U").toList)) then
        PipelineOutcome.sent
          { status := 200, body := decompressed,
            contentType := some (("application/vnd.apple.mpegurl").toList),
            contentEncoding := none, cacheWrite := none }
      else
        PipelineOutcome.sent
          { status := 200, body := charsToBytes (m3u8Rewrite text),
            contentType := some (("application/vnd.apple.mpegurl").toList),
            contentEncoding := none, cacheWrite := none }
    else if octIncludes contentType (("text/vtt").toList) && decide (resp.status = 200) then
      let text := bytesToChars resp.body
      let processed := processVttContent text
        { proxyBaseUrl := proxyBase, targetUrl := url }
      PipelineOutcome.sent
        { status := 200, body := charsToBytes processed,
          contentType := some (("text/vtt").toList),
          contentEncoding := none, cacheWrite := none }
    else if resp.hasBodyStream then
      let buffer :=
        if strTruthy contentEncoding && !isAudio
        then decompressContent c resp.body contentEncoding
        else resp.body
      let detectedType :=
        if isDisguisedSegment url then ("video/mp2t").toList
        else determineContentType buffer contentType url
      let ctFinal : Option Str :=
        if (decide (detectedType ≠ [])) && !isAudio then some detectedType
        else if strTruthy contentType then contentType
        else
          match getMimeType url with
          | some m => some m
          | none => ct0
      let ceFinal : Option Str :=
        if strTruthy contentEncoding && !isAudio then none else ce0
      let cacheWrite : Option (List Nat) :=
        if (decide (method = ("GET").toList)) && (decide (resp.status = 200)) &&
           !hasRange && (decide (buffer.length ≤ 10 * 1024 * 1024))
        then some buffer else none
      PipelineOutcome.sent
        { status := resp.status, body := buffer, contentType := ctFinal,
          contentEncoding := ceFinal, cacheWrite := cacheWrite }
    else
      PipelineOutcome.sent
        { status := resp.status, body := [], contentType := ct0,
          contentEncoding := ce0, cacheWrite := none }

/-! ## Domain Template Registry (src/unnamed/part_001,
`generateHeadersForUrl`) -/

/-- A JS header object, modelled as an insertion-ordered association list. -/
abbrev HeaderMap := List (Str × Str)

/-- The process-wide `headerCache` map (src/unnamed/part_001 line 20),
modelled as explicit state. -/
abbrev HeaderCache := List (Str × HeaderMap)

/-- Insertion or in-place replacement, as JS property assignment and
object spread behave. -/
def alistSet {α : Type} : List (Str × α) → Str → α → List (Str × α)
  | [], k, v => [(k, v)]
  | (k0, v0) :: rest, k, v =>
    if k0 = k then (k0, v) :: rest else (k0, v0) :: alistSet rest k v

/-- JS `delete obj[k]` (the maps built here carry unique keys, so removing
every binding of the key is the property deletion). -/
def alistDelete {α : Type} : List (Str × α) → Str → List (Str × α)
  | [], _ => []
  | (k0, v0) :: rest, k =>
    if k0 = k then alistDelete rest k else (k0, v0) :: alistDelete rest k

/-- JS `Object.assign(m, n)`. -/
def objAssign (m n : HeaderMap) : HeaderMap :=
  n.foldl (fun acc kv => alistSet acc kv.1 kv.2) m

/-- The `userAgents` pool (src/unnamed/part_001 lines 9-14). -/
def userAgents : List Str :=
  [("Mozilla/5.0 (Windows NT 10.0; Win64; x64; rv:137.0) Gecko/20100101 Firefox/137.0").toList,
   ("Mozilla/5.0 (Macintosh; Intel Mac OS X 10_15_7) AppleWebKit/537.36 Chrome/121.0.0.0 Safari/537.36").toList,
   ("Mozilla/5.0 (X11; Linux x86_64) AppleWebKit/537.36 Chrome/119.0.0.0 Safari/537.36").toList,
   ("Mozilla/5.0 (Windows NT 10.0; Win64; x64) AppleWebKit/537.36 Chrome/114.0.0.0 Safari/537.36").toList]

/-- Embedding of `getRandomUserAgent` (lines 16-18): the draw of
`Math.random()` is exposed as the index it lands on. -/
def getRandomUserAgent (r : Fin 4) : Str := userAgents.getD r.val []

/-- A registry entry (src/unnamed/part_001 lines 3-7).  The glob-or-regex
`pattern` field is abstracted as its induced hostname predicate; the
(large, constant) header payloads of the concrete registry are irrelevant
to the claims, which hold for every template list. -/
structure DomainTemplate where
  pattern : Str → Bool
  headers : HeaderMap
  headersFn : Option (UrlObj → HeaderMap) := none

/-- Embedding of `findTemplateForDomain` (lines 1384-1399): first matching
template, else the last entry of the registry (`none` models the
out-of-bounds access on an empty registry, which the source's constant
registry never exhibits). -/
def findTemplateForDomain (templates : List DomainTemplate) (url : UrlObj) :
    Option DomainTemplate :=
  match templates.find? (fun t => t.pattern url.hostname) with
  | some t => some t
  | none => templates.getLast?

/-- Embedding of `generateHeadersForUrl` (src/unnamed/part_001 lines
1401-1423) with the mutable `headerCache` passed explicitly: a cached
hostname returns a copy of its stored map and leaves the cache unchanged;
otherwise the matched template's headers are cloned, the user-agent is
replaced by the random draw, the per-URL derivation is merged, the
`cache-control` and `pragma` keys are deleted, and the result is stored
under the hostname. -/
def generateHeadersForUrl (templates : List DomainTemplate) (r : Fin 4)
    (headerCache : HeaderCache) (url : UrlObj) :
    Option (HeaderMap × HeaderCache) :=
  let cacheKey := url.hostname
  match alistGet headerCache cacheKey with
  | some m => some (m, headerCache)
  | none =>
    match findTemplateForDomain templates url with
    | none => none
    | some template =>
      let headers := alistSet template.headers (("user-agent").toList)
        (getRandomUserAgent r)
      let headers :=
        match template.headersFn with
        | some f => objAssign headers (f url)
        | none => headers
      let headers :=
        alistDelete (alistDelete headers (("cache-control").toList)) (("pragma").toList)
      some (headers, alistSet headerCache cacheKey headers)

/-- A header-map cache is well formed when every stored map lacks the
`cache-control` and `pragma` keys; the empty start-up cache is well
formed, and `generateHeadersForUrl` preserves the property. -/
def WfHeaderCache (cache : HeaderCache) : Prop :=
  ∀ k m, alistGet cache k = some m →
    alistGet m (("cache-control").toList) = none ∧
    alistGet m (("pragma").toList) = none

/-! ## Sample inputs used by the witness theorems -/

/-- Codecs on which every decode attempt fails. -/
def failingCodecs : Codecs :=
  { gzip := fun _ => none, brotli := fun _ => none,
    zstd := fun _ => none, inflate := fun _ => none }

/-- Codecs on which only brotli succeeds. -/
def brotliOnlyCodecs : Codecs :=
  { gzip := fun _ => none, brotli := fun _ => some [9],
    zstd := fun _ => none, inflate := fun _ => none }

/-- A sample upstream audio-segment response. -/
def sampleAudioResponse : UpstreamResponse :=
  { status := 200, contentType := some (("audio/mp4").toList),
    contentEncoding := some (("gzip").toList), contentLength := some 3,
    hasBodyStream := true, body := [5, 6, 7] }

/-- The upstream response of the cache-write bug scenario: a 200 GET
response declared gzip whose body no codec can decode. -/
def badGzipResponse : UpstreamResponse :=
  { status := 200, contentType := some (("application/octet-stream").toList),
    contentEncoding := some (("gzip").toList), contentLength := some 3,
    hasBodyStream := true, body := [1, 2, 3] }

/-- A one-entry registry whose template matches every hostname. -/
def sampleTemplates : List DomainTemplate :=
  [{ pattern := fun _ => true,
     headers := [(("accept").toList, ("*/*").toList),
                 (("cache-control").toList, ("no-cache").toList)],
     headersFn := none }]

/-- A sample parsed URL object. -/
def sampleUrlObj : UrlObj :=
  { protocol := ("https:").toList, hostname := ("example.com").toList,
    host := ("example.com").toList, pathname := ("/").toList }

/-- The header map the sample registry produces for draw 0: the template
headers with the drawn user-agent and the cache-control key deleted. -/
def sampleHeaderMap : HeaderMap :=
  [(("accept").toList, ("*/*").toList),
   (("user-agent").toList,
    ("Mozilla/5.0 (Windows NT 10.0; Win64; x64; rv:137.0) Gecko/20100101 Firefox/137.0").toList)]

/-- The header cache after the first sample call. -/
def sampleHeaderCache : HeaderCache :=
  [(("example.com").toList, sampleHeaderMap)]

/-! ## Helper lemmas -/

/-- Of two suffixes of the same list, the shorter is a suffix of the
longer. -/
theorem suffix_of_suffix_le {α : Type} {l₁ l₂ l : List α}
    (h₁ : l₁ <:+ l) (h₂ : l₂ <:+ l) (hle : l₁.length ≤ l₂.length) :
    l₁ <:+ l₂ := by
  obtain ⟨a, ha⟩ := h₁
  obtain ⟨b, hb⟩ := h₂
  have hab : a ++ l₁ = b ++ l₂ := ha.trans hb.symm
  rcases List.append_eq_append_iff.mp hab with ⟨a', h1, h2⟩ | ⟨c', h1, h2⟩
  · have hlen : l₁.length = a'.length + l₂.length := by
      rw [h2, List.length_append]
    have : a'.length = 0 := by omega
    have ha' : a' = [] := List.length_eq_zero.mp this
    subst ha'
    simp at h2
    exact h2 ▸ List.suffix_rfl
  · exact ⟨c', h2.symm⟩

/-- A disguised segment never has the `.m3u8` extension: its lowercase
form ends in one of the six suspicious extensions, none of which is a
suffix of `.m3u8` or has it as a suffix of equal length. -/
theorem disguised_not_m3u8 (url : Str) (h : isDisguisedSegment url = true) :
    jsEndsWith (jsToLower url) ((".m3u8").toList) = false := by
  unfold isDisguisedSegment at h
  by_cases hurl : url = []
  · simp [hurl] at h
  · rw [if_neg hurl] at h
    rw [Bool.and_eq_true] at h
    have hext := h.2
    rw [List.any_eq_true] at hext
    obtain ⟨ext, hmem, hends⟩ := hext
    by_contra hcon
    have hm3u8 : jsEndsWith (jsToLower url) ((".m3u8").toList) = true := by
      revert hcon
      cases jsEndsWith (jsToLower url) ((".m3u8").toList) <;> simp
    unfold jsEndsWith at hends hm3u8
    have hsuf1 : ext <:+ jsToLower url := List.isSuffixOf_iff_suffix.mp hends
    have hsuf2 : (".m3u8").toList <:+ jsToLower url :=
      List.isSuffixOf_iff_suffix.mp hm3u8
    have hlen : ext.length ≤ ((".m3u8").toList).length := by
      simp only [suspiciousExtensions, List.mem_cons] at hmem
      rcases hmem with rfl | rfl | rfl | rfl | rfl | rfl | h
      · decide
      · decide
      · decide
      · decide
      · decide
      · decide
      · simp at h
    have hsub : ext <:+ (".m3u8").toList := suffix_of_suffix_le hsuf1 hsuf2 hlen
    simp only [suspiciousExtensions, List.mem_cons] at hmem
    rcases hmem with rfl | rfl | rfl | rfl | rfl | rfl | h
    · exact absurd hsub (by decide)
    · exact absurd hsub (by decide)
    · exact absurd hsub (by decide)
    · exact absurd hsub (by decide)
    · exact absurd hsub (by decide)
    · exact absurd hsub (by decide)
    · simp at h

/-! ## Claim theorems -/

/-- C2: the transport-stream sniffer returns true iff the buffer has at
least 188 bytes, its first byte is 0x47, and at least one of the offsets
188, 376, 564, 752, 940 lies within the buffer and also holds 0x47; in
particular every buffer with a 0x47 head but fewer than 188 bytes is
negative, and every buffer with 0x47 at offsets 0 and 188 (hence of length
at least 189) is positive. -/
theorem c2_detectTransportStream_iff (data : List Nat) :
    detectTransportStream data = true ↔
      (188 ≤ data.length ∧ data.getD 0 0 = 0x47 ∧
       ∃ off ∈ [188, 376, 564, 752, 940],
         off < data.length ∧ data.getD off 0 = 0x47) := by
  unfold detectTransportStream
  rcases Nat.lt_or_ge data.length 188 with hlen | hlen
  · rw [if_pos hlen]
    constructor
    · intro h; cases h
    · rintro ⟨h188, -, -⟩; omega
  · rw [if_neg (by omega)]
    by_cases h0 : data.getD 0 0 = 0x47
    · rw [if_neg (fun hne => hne h0)]
      simp only [decide_eq_true_iff]
      have harith : ∀ n : Nat, 2 ≤ 1 + n ↔ 0 < n := by intro n; omega
      rw [harith, List.countP_pos_iff]
      constructor
      · rintro ⟨i, hi, hp⟩
        rw [Bool.and_eq_true, decide_eq_true_iff, beq_iff_eq] at hp
        refine ⟨hlen, h0, i * 188, ?_, hp.1, hp.2⟩
        simp only [List.mem_cons, List.not_mem_nil, or_false] at hi ⊢
        rcases hi with rfl | rfl | rfl | rfl | rfl
        · left; rfl
        · right; left; rfl
        · right; right; left; rfl
        · right; right; right; left; rfl
        · right; right; right; right; rfl
      · rintro ⟨-, -, off, hoff, hlt, hval⟩
        simp only [List.mem_cons, List.not_mem_nil, or_false] at hoff
        refine ⟨off / 188, ?_, ?_⟩
        · simp only [List.mem_cons, List.not_mem_nil, or_false]
          rcases hoff with rfl | rfl | rfl | rfl | rfl
          · left; rfl
          · right; left; rfl
          · right; right; left; rfl
          · right; right; right; left; rfl
          · right; right; right; right; rfl
        · rw [Bool.and_eq_true, decide_eq_true_iff, beq_iff_eq]
          have hoffeq : off / 188 * 188 = off := by
            rcases hoff with rfl | rfl | rfl | rfl | rfl
            · rfl
            · rfl
            · rfl
            · rfl
            · rfl
          rw [hoffeq]
          exact ⟨hlt, hval⟩
    · rw [if_pos h0]
      constructor
      · intro h; cases h
      · rintro ⟨-, hc, -⟩; exact absurd hc h0

/-- C3: the content-type arbitration of the buffered pipeline (disguised
segments first, then `determineContentType`) computes exactly the
decision order written in the spec: MPEG-TS sniff, then the `.m3u8`
extension override, then the disguised-segment rule, then the upstream
type with the octet-stream default. -/
theorem c3_arbitrateContentType_spec (buffer : List Nat)
    (originalContentType : Option Str) (url : Str) :
    arbitrateContentType buffer originalContentType url =
      specContentTypeArbiter buffer originalContentType url := by
  unfold arbitrateContentType specContentTypeArbiter determineContentType
  by_cases hd : isDisguisedSegment url = true
  · have hm : jsEndsWith (jsToLower url) ['.', 'm', '3', 'u', '8'] = false :=
      disguised_not_m3u8 url hd
    simp [hd, hm]
  · have hd' : isDisguisedSegment url = false := by
      cases hdis : isDisguisedSegment url
      · rfl
      · exact absurd hdis hd
    simp [hd']

/-- C1: on a cache hit for a GET carrying a Range header whose regex
parse yields bounds a and b with a ≤ b < size, the proxy responds 206
with the inclusive slice of the cached body (whose bytes are exactly
the cached bytes a..b) and a `Content-Range: bytes a-b/size` header;
when the bounds fail the validation (b ≥ size or a > b; a negative
start cannot even be produced by the digit-only regex), the full
cached body is returned instead. -/
theorem c1_cache_range (data : List Nat) (h : Str) (a b : Nat)
    (hparse : parseRangeHeader h = some (a, some b)) :
    (a ≤ b → b < data.length →
      cacheHitRange data (some h) =
        RangeOutcome.sliced206 ((data.drop a).take (b + 1 - a))
          (contentRangeStr a b data.length) ∧
      ((data.drop a).take (b + 1 - a)).length = b + 1 - a ∧
      (∀ i, i < b + 1 - a →
        ((data.drop a).take (b + 1 - a)).getD i 0 = data.getD (a + i) 0)) ∧
    (¬ (a ≤ b ∧ b < data.length) →
      cacheHitRange data (some h) = RangeOutcome.full data) := by
  have hred : cacheHitRange data (some h) =
      (if 0 ≤ a ∧ b < data.length ∧ a ≤ b then
        RangeOutcome.sliced206 ((data.drop a).take (b + 1 - a))
          (contentRangeStr a b data.length)
      else RangeOutcome.full data) := by
    have hstep : cacheHitRange data (some h) =
        (match parseRangeHeader h with
         | none => RangeOutcome.full data
         | some (start, stopOpt) =>
           let stop := stopOpt.getD (data.length - 1)
           if 0 ≤ start ∧ stop < data.length ∧ start ≤ stop then
             RangeOutcome.sliced206 ((data.drop start).take (stop + 1 - start))
               (contentRangeStr start stop data.length)
           else RangeOutcome.full data) := rfl
    rw [hstep, hparse]
    rfl
  constructor
  · intro hab hble
    have hcond : 0 ≤ a ∧ b < data.length ∧ a ≤ b := ⟨Nat.zero_le a, hble, hab⟩
    rw [hred, if_pos hcond]
    refine ⟨rfl, ?_, ?_⟩
    · rw [List.length_take, List.length_drop]
      omega
    · intro i hi
      rw [List.getD_eq_getElem?_getD, List.getD_eq_getElem?_getD,
        List.getElem?_take, if_pos hi, List.getElem?_drop]
  · intro hnot
    rw [hred, if_neg ?_]
    rintro ⟨-, h1, h2⟩
    exact hnot ⟨h2, h1⟩

/-- Witness for C1: the cached body 10,11,12,13,14 with header
`bytes=1-3` yields a 206 with bytes 11,12,13 and
`Content-Range: bytes 1-3/5`. -/
theorem c1_cache_range_witness :
    cacheHitRange [10, 11, 12, 13, 14] (some (("bytes=1-3").toList)) =
      RangeOutcome.sliced206 (([10, 11, 12, 13, 14].drop 1).take 3)
        (contentRangeStr 1 3 5) :=
  ((c1_cache_range [10, 11, 12, 13, 14] (("bytes=1-3").toList) 1 3 (by decide)).1
    (by decide) (by decide)).1

/-- C5: when the declared codec (one of gzip, br, zstd, deflate) fails,
`decompressContent` computes exactly the first success of the remaining
codecs tried once each in the order zstd, gzip, brotli, deflate with the
failed codec skipped, and returns the original input unchanged when every
attempt fails (the `getD` default). -/
theorem c5_fallback_order (c : Codecs) (buffer : List Nat) (declared : Str)
    (hdecl : declared ∈ [(("gzip").toList), (("br").toList), (("zstd").toList), (("deflate").toList)])
    (hfail : codecFor c declared buffer = none) :
    decompressContent c buffer (some declared) =
      (tryCodecs c (specFallbackOrder declared) buffer).getD buffer := by
  simp only [List.mem_cons, List.not_mem_nil, or_false] at hdecl
  rcases hdecl with rfl | rfl | rfl | rfl
  · have hg : c.gzip buffer = none := hfail
    have htrim : jsTrim (jsToLower ['g', 'z', 'i', 'p']) = ['g', 'z', 'i', 'p'] := rfl
    cases hzs : c.zstd buffer <;> cases hbr : c.brotli buffer <;> cases hinf : c.inflate buffer <;>
      simp [decompressContent, fallbackDecompression, tryCodecs, codecByName,
        specFallbackOrder, canonicalCodecName, jsReplaceFirst, htrim, hg, hzs, hbr, hinf]
  · have hb : c.brotli buffer = none := hfail
    have htrim : jsTrim (jsToLower ['b', 'r']) = ['b', 'r'] := rfl
    cases hzs : c.zstd buffer <;> cases hgz : c.gzip buffer <;> cases hinf : c.inflate buffer <;>
      simp [decompressContent, fallbackDecompression, tryCodecs, codecByName,
        specFallbackOrder, canonicalCodecName, jsReplaceFirst, htrim, hb, hzs, hgz, hinf]
  · have hz : c.zstd buffer = none := hfail
    have htrim : jsTrim (jsToLower ['z', 's', 't', 'd']) = ['z', 's', 't', 'd'] := rfl
    cases hgz : c.gzip buffer <;> cases hbr : c.brotli buffer <;> cases hinf : c.inflate buffer <;>
      simp [decompressContent, fallbackDecompression, tryCodecs, codecByName,
        specFallbackOrder, canonicalCodecName, jsReplaceFirst, htrim, hz, hgz, hbr, hinf]
  · have hi : c.inflate buffer = none := hfail
    have htrim : jsTrim (jsToLower ['d', 'e', 'f', 'l', 'a', 't', 'e']) = ['d', 'e', 'f', 'l', 'a', 't', 'e'] := rfl
    cases hzs : c.zstd buffer <;> cases hgz : c.gzip buffer <;> cases hbr : c.brotli buffer <;>
      simp [decompressContent, fallbackDecompression, tryCodecs, codecByName,
        specFallbackOrder, canonicalCodecName, jsReplaceFirst, htrim, hi, hzs, hgz, hbr]

/-- Witness for C5: with a declared gzip encoding that fails and only the
brotli codec succeeding, the fallback chain lands on brotli's output. -/
theorem c5_fallback_order_witness :
    decompressContent brotliOnlyCodecs [1] (some (("gzip").toList)) =
      (tryCodecs brotliOnlyCodecs (specFallbackOrder (("gzip").toList)) [1]).getD [1] ∧
    decompressContent brotliOnlyCodecs [1] (some (("gzip").toList)) = [9] :=
  ⟨c5_fallback_order brotliOnlyCodecs [1] (("gzip").toList) (by decide) rfl, by decide⟩

/-- C4 (bug evidence): a GET with a 200 upstream response, no Range
header and a 3-byte body declared gzip that no codec can decode — the
declared decode fails, every fallback fails, the original compressed
bytes flow to the client (the content-encoding header is dropped), and
the pipeline nevertheless writes those bytes into the cache, because the
cache-write condition at src/src/proxy-routes.ts lines 1202-1204 checks
only method, status, Range and size, contradicting the claim, spec
section 4.6 and the source's own comments about not caching failed
decompressions. -/
theorem c4_cache_write_despite_decompression_failure :
    failingCodecs.gzip [1, 2, 3] = none ∧
    decompressContent failingCodecs [1, 2, 3] (some (("gzip").toList)) = [1, 2, 3] ∧
    bufferedPipeline failingCodecs id (("/").toList) (("GET").toList) false true 1048576
      (("https://example.com/data.bin").toList) badGzipResponse =
      PipelineOutcome.sent
        { status := 200, body := [1, 2, 3],
          contentType := some (("application/octet-stream").toList),
          contentEncoding := none, cacheWrite := some [1, 2, 3] } :=
  ⟨rfl, by decide, by decide⟩

/-- C7: every 200 upstream response classified as an audio segment that
the buffered pipeline handles (no streaming re-route) is sent to the
client byte-for-byte — no decompression, no rewriting, no content-type
override — with the upstream Content-Encoding header forwarded instead of
dropped, and no cache write. -/
theorem c7_audio_passthrough (c : Codecs) (m3u8Rewrite : Str → Str) (proxyBase : Str)
    (method : Str) (hasRange : Bool) (enableStreaming : Bool) (streamThreshold : Nat)
    (url : Str) (resp : UpstreamResponse)
    (hstream : largeFileReroute enableStreaming streamThreshold method resp = false)
    (hstatus : resp.status = 200)
    (haudio : isAudioSegment resp.contentType url = true) :
    bufferedPipeline c m3u8Rewrite proxyBase method hasRange enableStreaming
        streamThreshold url resp =
      PipelineOutcome.sent
        { status := 200, body := resp.body, contentType := resp.contentType,
          contentEncoding := resp.contentEncoding, cacheWrite := none } := by
  simp [bufferedPipeline, hstream, hstatus, haudio]

/-- Witness for C7: a 200 `audio/mp4` response with a gzip
Content-Encoding passes through with its bytes and encoding intact. -/
theorem c7_audio_passthrough_witness :
    bufferedPipeline failingCodecs id (("/").toList) (("GET").toList) false true 1048576
      (("https://example.com/chunk.m4s").toList) sampleAudioResponse =
      PipelineOutcome.sent
        { status := 200, body := [5, 6, 7],
          contentType := some (("audio/mp4").toList),
          contentEncoding := some (("gzip").toList), cacheWrite := none } :=
  c7_audio_passthrough failingCodecs id (("/").toList) (("GET").toList) false true
    1048576 (("https://example.com/chunk.m4s").toList) sampleAudioResponse
    rfl rfl (by decide)

/-- C6 counterexample: with a protocol required, the absolute non-http
URL `ftp://example.com` — which parses but is not http or https — is
accepted by `validateUrl` (with its hostname), contradicting the claim
that such URLs are rejected; the source only checks for the presence of
`://`, not the scheme. -/
theorem c6_counterexample :
    validateUrl (("ftp://example.com").toList) { requireProtocol := true } =
      { valid := true, reason := none, hostname := some (("example.com").toList) } := by
  decide

/-- C6 amended: URL admission rejects the empty URL, any URL longer than
the configured maximum (default 2048), any URL without `://` when a
protocol is required (absolute URLs of any scheme that parse are
accepted, not only http/https), and any absolute URL whose host is not
in the allow-list when that list is non-empty; inputs starting with `/`
and relative URLs are accepted with no validation beyond the length
check, and accepted absolute URLs carry their hostname in the result. -/
theorem c6_admission_amended (url : Str) (opts : UrlValidatorOptions) :
    (validateUrl [] opts).valid = false ∧
    (opts.maxUrlLength < url.length → (validateUrl url opts).valid = false) ∧
    (({} : UrlValidatorOptions).maxUrlLength = 2048) ∧
    (url ≠ [] → url.length ≤ opts.maxUrlLength → jsStartsWith url (['/']) = true →
      validateUrl url opts = { valid := true }) ∧
    (url ≠ [] → url.length ≤ opts.maxUrlLength → jsStartsWith url (['/']) = false →
      jsIncludes url ([':', '/', '/']) = false → opts.requireProtocol = true →
      (validateUrl url opts).valid = false) ∧
    (url ≠ [] → url.length ≤ opts.maxUrlLength → jsStartsWith url (['/']) = false →
      jsIncludes url ([':', '/', '/']) = false → opts.requireProtocol = false →
      validateUrl url opts = { valid := true }) ∧
    (∀ u, url ≠ [] → url.length ≤ opts.maxUrlLength → jsStartsWith url (['/']) = false →
      jsIncludes url ([':', '/', '/']) = true → jsNewUrl url = some u →
      opts.allowedDomains ≠ [] → u.hostname ∉ opts.allowedDomains →
      (validateUrl url opts).valid = false ∧
      (validateUrl url opts).hostname = some u.hostname) ∧
    (∀ u, url ≠ [] → url.length ≤ opts.maxUrlLength → jsStartsWith url (['/']) = false →
      jsIncludes url ([':', '/', '/']) = true → jsNewUrl url = some u →
      (opts.allowedDomains = [] ∨ u.hostname ∈ opts.allowedDomains) →
      validateUrl url opts = { valid := true, hostname := some u.hostname }) := by
  refine ⟨?_, ?_, rfl, ?_, ?_, ?_, ?_, ?_⟩
  · simp [validateUrl]
  · intro hlen
    by_cases hurl : url = [] <;> simp [validateUrl, hurl, hlen]
  · intro hne hlen hslash
    simp [validateUrl, hne, hslash, Nat.not_lt.mpr hlen]
  · intro hne hlen hslash hproto hreq
    simp [validateUrl, hne, hslash, hproto, hreq, Nat.not_lt.mpr hlen]
  · intro hne hlen hslash hproto hreq
    simp [validateUrl, hne, hslash, hproto, hreq, Nat.not_lt.mpr hlen]
  · intro u hne hlen hslash hproto hparse hdom hmem
    simp [validateUrl, hne, hslash, hproto, hparse, hdom, hmem, Nat.not_lt.mpr hlen]
  · intro u hne hlen hslash hproto hparse hdom
    rcases hdom with hdom | hdom
    · simp [validateUrl, hne, hslash, hproto, hparse, hdom, Nat.not_lt.mpr hlen]
    · by_cases hempty : opts.allowedDomains = []
      · simp [validateUrl, hne, hslash, hproto, hparse, hempty, Nat.not_lt.mpr hlen]
      · simp [validateUrl, hne, hslash, hproto, hparse, hempty, hdom, Nat.not_lt.mpr hlen]

/-- Witness for C6 amended: a relative URL is rejected when a protocol is
required, and a path-only URL is accepted. -/
theorem c6_admission_amended_witness :
    (validateUrl (("example.com").toList) { requireProtocol := true }).valid = false ∧
    validateUrl (("/internal").toList) { } = { valid := true } :=
  ⟨(c6_admission_amended (("example.com").toList) { requireProtocol := true }).2.2.2.2.1
      (by decide) (by decide) (by decide) (by decide) rfl,
   (c6_admission_amended (("/internal").toList) { }).2.2.2.1
      (by decide) (by decide) (by decide)⟩

/-- C8: the subtitle rewriter returns its input byte-for-byte whenever an
error is raised while processing — an unparsable target URL, or a failing
image-URL resolution inside the rewrite loop — and always returns an
input that contains no match of the image pattern unchanged. -/
theorem c8_vtt_error_identity (content : Str) (options : VttHandlerOptions) :
    (jsNewUrl options.targetUrl = none → processVttContent content options = content) ∧
    (vttImageMatches content = [] → processVttContent content options = content) ∧
    (∀ u, jsNewUrl options.targetUrl = some u →
      vttRewriteLoop options u (basePathOf options.targetUrl)
        (uniqueAux [] (vttImageMatches content)) content = none →
      processVttContent content options = content) := by
  refine ⟨?_, ?_, ?_⟩
  · intro hparse
    simp [processVttContent, hparse]
  · intro hm
    cases hp : jsNewUrl options.targetUrl with
    | none => simp [processVttContent, hp]
    | some u => simp [processVttContent, hp, hm]
  · intro u hp hloop
    simp [processVttContent, hp, hloop]

/-- Witness for C8: an input without image references is returned
unchanged, and an input with an image reference is returned unchanged
when the target URL cannot be parsed. -/
theorem c8_vtt_error_identity_witness :
    processVttContent (("no images at all").toList)
      { proxyBaseUrl := ("/").toList, targetUrl := ("https://h/a/b.vtt").toList } =
      ("no images at all").toList ∧
    processVttContent (("pic.jpg").toList)
      { proxyBaseUrl := ("/").toList, targetUrl := ("bad target url").toList } =
      ("pic.jpg").toList :=
  ⟨(c8_vtt_error_identity (("no images at all").toList)
      { proxyBaseUrl := ("/").toList, targetUrl := ("https://h/a/b.vtt").toList }).2.1
      (by decide),
   (c8_vtt_error_identity (("pic.jpg").toList)
      { proxyBaseUrl := ("/").toList, targetUrl := ("bad target url").toList }).1
      (by decide)⟩

/-- C9: decoding the base64 path parameter never fails — the Node decoder
is total, so the middleware's catch block is dead and the 400 response
with message Invalid base64 encoded URL is unreachable for every
combination of query, path and encoded parameters; malformed base64 is
silently decoded and the result flows into ordinary URL validation. -/
theorem c9_base64_decode_total (queryUrl paramUrl paramEncodedUrl : Option Str)
    (opts : UrlValidatorOptions) :
    isInvalidBase64 (validateUrlParam queryUrl paramUrl paramEncodedUrl opts) = false := by
  unfold validateUrlParam
  dsimp only []
  repeat first | rfl | split

/-- Lookup after in-place insertion finds the inserted value. -/
theorem alistGet_alistSet_self {α : Type} (m : List (Str × α)) (k : Str) (v : α) :
    alistGet (alistSet m k v) k = some v := by
  induction m with
  | nil => simp [alistSet, alistGet]
  | cons kv rest ih =>
    obtain ⟨k0, v0⟩ := kv
    by_cases h : k0 = k
    · simp [alistSet, alistGet, h]
    · simp [alistSet, alistGet, h, ih]

/-- Insertion does not disturb other keys. -/
theorem alistGet_alistSet_ne {α : Type} (m : List (Str × α)) (k k' : Str) (v : α)
    (hne : k' ≠ k) : alistGet (alistSet m k v) k' = alistGet m k' := by
  induction m with
  | nil => simp [alistSet, alistGet, Ne.symm hne]
  | cons kv rest ih =>
    obtain ⟨k0, v0⟩ := kv
    by_cases h : k0 = k
    · subst h
      simp [alistSet, alistGet, Ne.symm hne]
    · simp [alistSet, alistGet, h, ih]

/-- A deleted key is absent. -/
theorem alistGet_alistDelete_self {α : Type} (m : List (Str × α)) (k : Str) :
    alistGet (alistDelete m k) k = none := by
  induction m with
  | nil => simp [alistDelete, alistGet]
  | cons kv rest ih =>
    obtain ⟨k0, v0⟩ := kv
    by_cases h : k0 = k
    · simp [alistDelete, alistGet, h, ih]
    · simp [alistDelete, alistGet, h, ih]

/-- Deletion does not disturb other keys. -/
theorem alistGet_alistDelete_ne {α : Type} (m : List (Str × α)) (k k' : Str)
    (hne : k' ≠ k) : alistGet (alistDelete m k) k' = alistGet m k' := by
  induction m with
  | nil => simp [alistDelete, alistGet]
  | cons kv rest ih =>
    obtain ⟨k0, v0⟩ := kv
    by_cases h : k0 = k
    · subst h
      simp [alistDelete, alistGet, Ne.symm hne, ih]
    · simp [alistDelete, alistGet, h, ih]

/-- C10: for any two URLs with the same hostname and any well-formed
header-map cache, once a first call has produced a header map, every
later call — whatever its random user-agent draw — returns that same map
and leaves the cache unchanged (so the randomly chosen user-agent is
fixed per hostname for the life of the process), and the returned map
never contains the keys `cache-control` or `pragma`. -/
theorem c10_header_determinism (templates : List DomainTemplate) (r1 r2 : Fin 4)
    (cache : HeaderCache) (u1 u2 : UrlObj) (hhost : u1.hostname = u2.hostname)
    (hwf : WfHeaderCache cache) (m1 : HeaderMap) (c1 : HeaderCache)
    (hfirst : generateHeadersForUrl templates r1 cache u1 = some (m1, c1)) :
    generateHeadersForUrl templates r2 c1 u2 = some (m1, c1) ∧
    alistGet m1 (("cache-control").toList) = none ∧
    alistGet m1 (("pragma").toList) = none ∧
    WfHeaderCache c1 := by
  have hccp : (("cache-control").toList : Str) ≠ (("pragma").toList) := by decide
  unfold generateHeadersForUrl at hfirst ⊢
  dsimp only [] at hfirst ⊢
  cases hlook : alistGet cache u1.hostname with
  | some m =>
    rw [hlook] at hfirst
    injection hfirst with hpair
    injection hpair with hm hc
    subst hm
    subst hc
    rw [← hhost, hlook]
    exact ⟨rfl, (hwf _ _ hlook).1, (hwf _ _ hlook).2, hwf⟩
  | none =>
    rw [hlook] at hfirst
    cases htmpl : findTemplateForDomain templates u1 with
    | none =>
      rw [htmpl] at hfirst
      exact absurd hfirst (by simp)
    | some t =>
      rw [htmpl] at hfirst
      dsimp only [] at hfirst
      injection hfirst with hpair
      injection hpair with hm hc
      constructor
      · rw [← hhost, ← hc, ← hm, alistGet_alistSet_self]
      · refine ⟨?_, ?_, ?_⟩
        · rw [← hm, alistGet_alistDelete_ne _ _ _ hccp, alistGet_alistDelete_self]
        · rw [← hm, alistGet_alistDelete_self]
        · intro k m hk
          by_cases hkey : k = u1.hostname
          · subst hkey
            rw [← hc, alistGet_alistSet_self] at hk
            injection hk with hk
            subst hk
            constructor
            · rw [alistGet_alistDelete_ne _ _ _ hccp, alistGet_alistDelete_self]
            · rw [alistGet_alistDelete_self]
          · rw [← hc, alistGet_alistSet_ne _ _ _ _ hkey] at hk
            exact hwf _ _ hk

/-- Witness for C10: after a first call with draw 0 populates the cache
for `example.com`, a second call with the different draw 3 returns the
identical header map (same user-agent), leaves the cache unchanged, and
the map carries neither `cache-control` nor `pragma`. -/
theorem c10_header_determinism_witness :
    generateHeadersForUrl sampleTemplates 3 sampleHeaderCache sampleUrlObj =
      some (sampleHeaderMap, sampleHeaderCache) ∧
    alistGet sampleHeaderMap (("cache-control").toList) = none ∧
    alistGet sampleHeaderMap (("pragma").toList) = none ∧
    WfHeaderCache sampleHeaderCache :=
  c10_header_determinism sampleTemplates 0 3 [] sampleUrlObj sampleUrlObj rfl
    (fun k m hm => by simp [alistGet] at hm) sampleHeaderMap sampleHeaderCache rfl
